import Mathlib

/-!
# A shallow embedding of the `python-parse` resolution engine

This file embeds the type-directed decoding engine of the repository:

* `src/python_parse/parse.py` (entry points `get_parser`,
  `get_parser_with_no_defaults`, the internal `_get_parser`, `_parse`,
  `_parse_value`, `_try_converters`, `_parse_key_value`,
  `_parse_attributes`, `_unpack_union`, `_is_valid`, `_isinstance`),
* `src/python_parse/converters.py` (`convert_value`, `convert_nested`,
  `convert_dict`, `convert_list`, `convert_tuple`),
* `src/python_parse/generics_unpack.py` (`unpack_to_list`,
  `unpack_to_tuple`, `unpack_dict`),
* and, in the `Legacy` namespace, the earlier-iteration engine of
  `src/parse.py` (rating-based value parsers and the singleton-sequence
  unwrap in its `_parse_value`).

Python target types are embedded as the inductive `Shape`; decoded raw
data as the inductive `Value` (`vnone` stands for Python's `None`, so a
function returning `T | None` is embedded as `Except PErr Value` with
`.ok .vnone` as the `None` result).  Raised `TypeError` / `KeyError`
exceptions become the `PErr` error monad.  Python's unbounded recursion
through the `ResolveWithParser` capability is embedded with an explicit
fuel argument, decremented once per nested parser invocation; every other
helper is non-recursive or structurally recursive, so all definitions
evaluate by kernel reduction.
-/

namespace PythonParse

/-- The scalar classes that occur as leaf target types. -/
inductive STy where
  | sInt
  | sStr
  | sBool

/-- A Python target type as the engine inspects it: scalar classes,
`NoneType`, the literal `Ellipsis` (as it appears in `get_args` of a
variadic tuple), parameterized generics, annotated record classes (the
class name together with its `get_annotations` result) and unions.
`tupleS` is a fixed-arity `tuple[T1, ..., Tn]`; `tupleVar` is the
homogeneous variadic `tuple[T, ...]`. -/
inductive Shape where
  | scalar : STy → Shape
  | noneS : Shape
  | ellip : Shape
  | listS : Shape → Shape
  | tupleS : List Shape → Shape
  | tupleVar : Shape → Shape
  | dictS : Shape → Shape → Shape
  | classS : String → List (String × Shape) → Shape
  | unionS : List Shape → Shape

/-- A decoded raw value (or a value produced by the engine): scalars,
`None`, `Ellipsis`, lists, tuples, dicts, and constructed record
instances (class name with attribute values). -/
inductive Value where
  | vint : Int → Value
  | vstr : String → Value
  | vbool : Bool → Value
  | vnone : Value
  | vellipsis : Value
  | vlist : List Value → Value
  | vtuple : List Value → Value
  | vdict : List (Value × Value) → Value
  | vobj : String → List (String × Value) → Value

/-- The exceptions the engine raises: `TypeError(msg)` and
`KeyError(msg)`; `valueError` stands for the `ValueError` a failed
destructuring assignment raises in the legacy engine. -/
inductive PErr where
  | typeError : String → PErr
  | keyError : String → PErr
  | valueError : PErr

/-- `isinstance(value, dict)`. -/
def Value.isDict : Value → Bool
  | .vdict _ => true
  | _ => false

/-- `value is None`. -/
def Value.isVnone : Value → Bool
  | .vnone => true
  | _ => false

/-- Whether the value is an instance of the record class named `m`. -/
def Value.isObjOf : Value → String → Bool
  | .vobj n _, m => n == m
  | _, _ => false

/-- `isinstance(value, Iterable)`: lists, tuples, strings and dicts are
iterable; scalars, `None`, `Ellipsis` and objects are not. -/
def isIterable : Value → Bool
  | .vlist _ => true
  | .vtuple _ => true
  | .vstr _ => true
  | .vdict _ => true
  | _ => false

/-- The elements obtained by iterating a value: list/tuple elements, the
single-character strings of a string, the keys of a dict. -/
def iterElems : Value → List Value
  | .vlist xs => xs
  | .vtuple xs => xs
  | .vstr s => s.data.map (fun c => .vstr (String.mk [c]))
  | .vdict ps => ps.map (fun p => p.1)
  | _ => []

/-- The `get_origin` results the engine distinguishes. -/
inductive Origin where
  | olist
  | otuple
  | odict
  | ounion

/-- `typing.get_origin`: `some` for parameterized generics and unions,
`none` for plain classes. -/
def getOrigin : Shape → Option Origin
  | .listS _ => some .olist
  | .tupleS _ => some .otuple
  | .tupleVar _ => some .otuple
  | .dictS _ _ => some .odict
  | .unionS _ => some .ounion
  | _ => none

/-- `typing.get_args`: the argument tuple of a parameterized generic.  A
variadic tuple reports `(T, Ellipsis)`, exactly as CPython does. -/
def shapeArgs : Shape → List Shape
  | .listS a => [a]
  | .tupleS ts => ts
  | .tupleVar a => [a, .ellip]
  | .dictS k w => [k, w]
  | .unionS ts => ts
  | _ => []

/-- `target_type is NoneType` (the identity test `_unpack_union` uses). -/
def Shape.isNoneS : Shape → Bool
  | .noneS => true
  | _ => false

/-- Direct scalar conformance, `isinstance` against a scalar class.
`bool` is a subclass of `int` in Python, so booleans conform to `sInt`. -/
def conformsScalar : Value → STy → Bool
  | .vint _, .sInt => true
  | .vbool _, .sInt => true
  | .vbool _, .sBool => true
  | .vstr _, .sStr => true
  | _, _ => false

/-- `isinstance(value, target)` for a non-union target.  CPython raises
`TypeError` when the second argument is a parameterized generic or the
`Ellipsis` literal; that raise is the `.error` case. -/
def isinstanceBase (v : Value) : Shape → Except Unit Bool
  | .scalar st => .ok (conformsScalar v st)
  | .noneS => .ok v.isVnone
  | .ellip => .error ()
  | .listS _ => .error ()
  | .tupleS _ => .error ()
  | .tupleVar _ => .error ()
  | .dictS _ _ => .error ()
  | .classS n _ => .ok (v.isObjOf n)
  | .unionS _ => .error ()

/-- `isinstance` against the members of a union type, first match wins.
Union arguments are flat in Python (unions never nest), so the members
are non-union shapes. -/
def isinstanceUnion (v : Value) : List Shape → Except Unit Bool
  | [] => .ok false
  | t :: ts =>
    match isinstanceBase v t with
    | .error e => .error e
    | .ok true => .ok true
    | .ok false => isinstanceUnion v ts

/-- `isinstance(value, target)`, with `X | Y` union targets accepted
(membership in any alternative), as `types.UnionType` supports. -/
def isinstanceE (v : Value) : Shape → Except Unit Bool
  | .unionS ts => isinstanceUnion v ts
  | t => isinstanceBase v t

/-- `_isinstance` from `src/python_parse/parse.py`: `isinstance` with the
`TypeError` caught and turned into the Ellipsis-vs-EllipsisType check. -/
def pyIsinstance (v : Value) (t : Shape) : Bool :=
  match isinstanceE v t with
  | .ok b => b
  | .error _ => (match v, t with
    | .vellipsis, .ellip => true
    | _, _ => false)

/-- The defunctionalized `ResolveWithParser` continuations the built-in
converters produce: nested-record resolution, and per-element resolution
for dicts, lists, and tuples (each element paired with its slot type). -/
inductive Pend where
  | nested : Shape → Value → Pend
  | listP : Shape → List Value → Pend
  | tupleP : List (Value × Shape) → Pend
  | dictP : Shape → Shape → List (Value × Value) → Pend

/-- The result of a single converter: `NoMatch`, a directly converted
value, or a `ResolveWithParser` continuation. -/
inductive MatchOut where
  | noMatch
  | value : Value → MatchOut
  | pend : Pend → MatchOut

/-- `TConvertFunc`: a converter takes the source value and the target
type and returns a `MatchOut`, possibly raising. -/
abbrev Conv := Value → Shape → Except PErr MatchOut

/-- `TNestedTupleOrNoMatch`: a generic unpacker returns `NoMatch` or the
tuple of element groups, one group per type argument. -/
inductive UnpackRes where
  | noMatch
  | groups : List (List Value) → UnpackRes

/-- `TUnpackGenericFunc`. -/
abbrev Unp := Value → Shape → UnpackRes

/-- `TParser`: the recursive parser capability handed to pending
resolutions. -/
abbrev Parser := Shape → Value → Except PErr Value

/-- `convert_value` from `converters.py`: return the source when it is an
instance of the target type.  The raw `isinstance` call raises on
parameterized generic targets. -/
def convert_value : Conv := fun v t =>
  match isinstanceE v t with
  | .error _ => .error (.typeError "")
  | .ok true => .ok (.value v)
  | .ok false => .ok .noMatch

/-- `convert_nested` from `converters.py`: any dict source matches, with
a continuation that re-parses the dict at the same target type. -/
def convert_nested : Conv := fun v t =>
  match v with
  | .vdict _ => .ok (.pend (.nested t v))
  | _ => .ok .noMatch

/-- `convert_dict` from `converters.py`. -/
def convert_dict : Conv := fun v t =>
  match v with
  | .vdict ps =>
    (match t with
     | .dictS kt vt => .ok (.pend (.dictP kt vt ps))
     | _ => .ok .noMatch)
  | _ => .ok .noMatch

/-- `convert_list` from `converters.py`: any iterable source whose target
has origin `list` matches, elements resolved at the single argument. -/
def convert_list : Conv := fun v t =>
  if isIterable v then
    match t with
    | .listS a => .ok (.pend (.listP a (iterElems v)))
    | _ => .ok .noMatch
  else .ok .noMatch

/-- `len(args) == 2 and isinstance(args[1], EllipsisType)`: the argument
tuple of a homogeneous variadic `tuple[T, ...]`. -/
def isVariadicArgs : List Shape → Bool
  | [_, .ellip] => true
  | _ => false

/-- `convert_tuple` from `converters.py`: any iterable source whose
target has origin `tuple`; variadic argument lists `(T, Ellipsis)` are
expanded to one copy of `T` per element, then the arity must equal the
source length. -/
def convert_tuple : Conv := fun v t =>
  if isIterable v then
    match getOrigin t with
    | some .otuple =>
      let elems := iterElems v
      let args := shapeArgs t
      let args :=
        if isVariadicArgs args then List.replicate elems.length (args.headD .ellip)
        else args
      if args.length == elems.length then
        .ok (.pend (.tupleP (elems.zip args)))
      else .ok .noMatch
    | _ => .ok .noMatch
  else .ok .noMatch

/-- `DEFAULT_CONVERTERS` from `parse.py`, in source order. -/
def DEFAULT_CONVERTERS : List Conv :=
  [convert_tuple, convert_list, convert_dict, convert_nested, convert_value]

/-- `unpack_to_list` from `generics_unpack.py`: one group holding every
element. -/
def unpack_to_list : Unp := fun v t =>
  if isIterable v then
    match getOrigin t with
    | some .olist => .groups [iterElems v]
    | _ => .noMatch
  else .noMatch

/-- `unpack_to_tuple` from `generics_unpack.py`: for a variadic tuple the
groups are the whole element list paired with `(Ellipsis,)`; for a fixed
tuple every element is its own group. -/
def unpack_to_tuple : Unp := fun v t =>
  if isIterable v then
    match getOrigin t with
    | some .otuple =>
      let elems := iterElems v
      if isVariadicArgs (shapeArgs t) then .groups [elems, [.vellipsis]]
      else .groups (elems.map (fun e => [e]))
    | _ => .noMatch
  else .noMatch

/-- `unpack_dict` from `generics_unpack.py`: the keys group and the
values group. -/
def unpack_dict : Unp := fun v t =>
  match v with
  | .vdict ps =>
    (match getOrigin t with
     | some .odict => .groups [ps.map (fun p => p.1), ps.map (fun p => p.2)]
     | _ => .noMatch)
  | _ => .noMatch

/-- `CORE_UNPACKERS` from `parse.py`, in source order. -/
def CORE_UNPACKERS : List Unp := [unpack_to_list, unpack_to_tuple, unpack_dict]

mutual

/-- The number of nodes of a shape (record-class field lists, which the
`get_args` recursion of `_is_valid` never enters, count as leaves). -/
def shapeSize : Shape → Nat
  | .listS a => shapeSize a + 1
  | .tupleS ts => shapeSizeList ts + 1
  | .tupleVar a => shapeSize a + 1
  | .dictS k w => shapeSize k + shapeSize w + 1
  | .unionS ts => shapeSizeList ts + 1
  | _ => 1
termination_by structural t => t

/-- Total size of a list of shapes. -/
def shapeSizeList : List Shape → Nat
  | [] => 0
  | t :: ts => shapeSize t + shapeSizeList ts
termination_by structural ts => ts

end

/-- `_unpack_values` folded by `reduce` in `_is_valid`: the first
unpacker that does not return `NoMatch` wins. -/
def reduceUnpack (us : List Unp) (v : Value) (t : Shape) : UnpackRes :=
  us.foldl (fun r u => match r with | .noMatch => u v t | r => r) .noMatch

/-- `_is_valid` from `parse.py`, with an explicit fuel (the recursion is
along `get_args`, so any fuel at least `sizeOf t` behaves like the
unbounded source recursion; `isValid` below supplies it). -/
def isValidFuel (us : List Unp) : Nat → Value → Shape → Bool
  | 0, _, _ => false
  | fuel + 1, v, t =>
    if pyIsinstance v t then true
    else
      match getOrigin t with
      | none => false
      | some _ =>
        match reduceUnpack us v t with
        | .noMatch => false
        | .groups gs =>
          if gs.length == (shapeArgs t).length then
            (gs.zip (shapeArgs t)).all
              (fun ga => ga.1.all (fun e => isValidFuel us fuel e ga.2))
          else false

/-- `_is_valid` from `parse.py`: the wrapper supplies fuel `shapeSize t`,
which strictly dominates the `get_args` recursion depth. -/
def isValid (us : List Unp) (v : Value) (t : Shape) : Bool :=
  isValidFuel us (shapeSize t) v t

/-- `_unpack_union` from `parse.py`: a union splits into its nullability
flag and its non-`NoneType` arguments in declared order; anything else is
its own single candidate. -/
def unpackUnion : Shape → Bool × List Shape
  | .unionS ts => (ts.any Shape.isNoneS, ts.filter (fun a => !a.isNoneS))
  | t => (false, [t])

/-- `_try_converters` from `parse.py`: run the converters in order and
return the first result that is not `NoMatch`. -/
def tryConverters (v : Value) (t : Shape) : List Conv → Except PErr MatchOut
  | [] => .ok .noMatch
  | c :: cs =>
    match c v t with
    | .error e => .error e
    | .ok .noMatch => tryConverters v t cs
    | .ok r => .ok r

/-- One pair of the dict comprehension in `convert_dict`'s continuation:
the key is parsed first, then the value. -/
def parsePair (p : Parser) (kt vt : Shape) (pr : Value × Value) :
    Except PErr (Value × Value) :=
  match p kt pr.1 with
  | .error e => .error e
  | .ok k =>
    match p vt pr.2 with
    | .error e => .error e
    | .ok w => .ok (k, w)

/-- Interpreting a `ResolveWithParser` continuation with the parser
capability `p`, exactly as the closures in `converters.py` do.  Dict
comprehension order: key, then value, per pair. -/
def runPend (p : Parser) : Pend → Except PErr Value
  | .nested t src => p t src
  | .listP a elems =>
    match elems.mapM (fun e => p a e) with
    | .error e => .error e
    | .ok xs => .ok (.vlist xs)
  | .tupleP pairs =>
    match pairs.mapM (fun pr => p pr.2 pr.1) with
    | .error e => .error e
    | .ok xs => .ok (.vtuple xs)
  | .dictP kt vt pairs =>
    match pairs.mapM (parsePair p kt vt) with
    | .error e => .error e
    | .ok ps => .ok (.vdict ps)

/-- `_parse_value` from `parse.py`: walk the union alternatives in
declared order; the first alternative on which `_try_converters` returns
something other than `NoMatch` determines the result — a pending
resolution is run with the recursive parser and returned directly; when
every alternative yields `NoMatch` the result is `None`. -/
def parseValue (cs : List Conv) (p : Parser) (v : Value) :
    List Shape → Except PErr Value
  | [] => .ok .vnone
  | t :: rest =>
    match tryConverters v t cs with
    | .error e => .error e
    | .ok .noMatch => parseValue cs p v rest
    | .ok (.value x) => .ok x
    | .ok (.pend pd) => runPend p pd

/-- `_parse` from `parse.py`: resolve the value, short-circuit a `None`
result for optional targets, and otherwise accept only when `_is_valid`
holds for some union alternative. -/
def parseP (cs : List Conv) (us : List Unp) (p : Parser) (v : Value)
    (alts : List Shape) (optional : Bool) : Except PErr Value :=
  match parseValue cs p v alts with
  | .error e => .error e
  | .ok parsed =>
    if optional && parsed.isVnone then .ok .vnone
    else if alts.any (fun a => isValid us parsed a) then .ok parsed
    else .error (.typeError "")

/-- Lookup of a string key in a raw dict. -/
def dictLookup (data : List (Value × Value)) (key : String) : Option Value :=
  (data.find? (fun pr =>
    match pr.1 with
    | .vstr s => s == key
    | _ => false)).map (fun pr => pr.2)

/-- `data.get(key)`: missing keys give `None`. -/
def dictGet (data : List (Value × Value)) (key : String) : Value :=
  (dictLookup data key).getD .vnone

/-- An abstraction of CPython's `str(type)` used only inside error
messages (the exact rendering is not engine behaviour). -/
def shapeRepr : Shape → String
  | .scalar .sInt => "int"
  | .scalar .sStr => "str"
  | .scalar .sBool => "bool"
  | .noneS => "NoneType"
  | .ellip => "Ellipsis"
  | .listS _ => "list[...]"
  | .tupleS _ => "tuple[...]"
  | .tupleVar _ => "tuple[..., ...]"
  | .dictS _ _ => "dict[...]"
  | .classS n _ => n
  | .unionS _ => "Union[...]"

/-- `TYPE_ERROR_MSG` from `parse.py`, formatted with the field key and
the declared type. -/
def typeErrorMsg (key : String) (t : Shape) : String :=
  "'" ++ key ++ "' in data not compatible with '" ++ shapeRepr t ++ "'"

/-- `KEY_ERROR_MSG` from `parse.py`, formatted with the field key. -/
def keyErrorMsg (key : String) : String :=
  "'" ++ key ++ "' not found in data"

/-- The `except TypeError`/`except KeyError` re-raises of
`_parse_key_value`: a `TypeError` or `KeyError` is replaced with the
field-naming message; anything else passes through unchanged. -/
def wrapFieldErr (key : String) (tkey : Shape) :
    Except PErr Value → Except PErr Value
  | .error (.typeError _) => .error (.typeError (typeErrorMsg key tkey))
  | .error (.keyError _) => .error (.keyError (keyErrorMsg key))
  | r => r

/-- `_parse_key_value` from `parse.py`: unwrap the field's union, look
the key up (`.get` when nullable, subscript otherwise), resolve, and
re-raise any `TypeError`/`KeyError` with the field-naming message. -/
def parseKeyValue (cs : List Conv) (us : List Unp) (p : Parser)
    (data : List (Value × Value)) (key : String) (tkey : Shape) :
    Except PErr Value :=
  let ou := unpackUnion tkey
  wrapFieldErr key tkey
    (if ou.1 then parseP cs us p (dictGet data key) ou.2 true
     else
       match dictLookup data key with
       | none => .error (.keyError "")
       | some v => parseP cs us p v ou.2 false)

/-- `_parse_attributes` from `parse.py`: resolve each annotated field in
declaration order; the first raise aborts the comprehension. -/
def parseAttributes (cs : List Conv) (us : List Unp) (p : Parser)
    (data : List (Value × Value)) :
    List (String × Shape) → Except PErr (List (String × Value))
  | [] => .ok []
  | (k, t) :: rest =>
    match parseKeyValue cs us p data k t with
    | .error e => .error e
    | .ok w =>
      match parseAttributes cs us p data rest with
      | .error e => .error e
      | .ok ws => .ok ((k, w) :: ws)

/-- `inspect.get_annotations(target_type)`: the declared fields of a
record class, `{}` for plain classes and generic aliases, and a raise for
targets that are not a module, class or callable (unions, `Ellipsis`). -/
def getAnnotations : Shape → Except PErr (List (String × Shape))
  | .classS _ fs => .ok fs
  | .scalar _ => .ok []
  | .noneS => .ok []
  | .listS _ => .ok []
  | .tupleS _ => .ok []
  | .tupleVar _ => .ok []
  | .dictS _ _ => .ok []
  | .unionS _ => .error (.typeError "")
  | .ellip => .error (.typeError "")

/-- `_init_kwargs` / `_init_and_setattr`: build the target instance from
the resolved attributes.  For record classes both construction styles
yield the instance carrying the attributes; for annotation-free builtins
the zero-argument constructor's default value results. -/
def constructObj : Shape → List (String × Value) → Except PErr Value
  | .classS n _, attrs => .ok (.vobj n attrs)
  | .scalar .sInt, _ => .ok (.vint 0)
  | .scalar .sStr, _ => .ok (.vstr "")
  | .scalar .sBool, _ => .ok (.vbool false)
  | .noneS, _ => .ok .vnone
  | .listS _, _ => .ok (.vlist [])
  | .tupleS _, _ => .ok (.vtuple [])
  | .tupleVar _, _ => .ok (.vtuple [])
  | .dictS _ _, _ => .ok (.vdict [])
  | _, _ => .error (.typeError "")

/-- `_get_parser` from `parse.py` (the optional parser, returning
`T | None`): a non-dict value resolves through `_parse` against the
union's candidates; a dict value resolves through `_parse` only when the
target's origin is `dict`, errors on a union target, and otherwise
resolves the target's annotations field by field and constructs the
instance.  The fuel bounds the nesting depth of parser invocations. -/
def parseTop (cs : List Conv) (us : List Unp) :
    Nat → Shape → Value → Except PErr Value
  | 0, _, _ => .error (.typeError "")
  | fuel + 1, t, v =>
    let p := parseTop cs us fuel
    let ou := unpackUnion t
    match v with
    | .vdict ps =>
      (match getOrigin t with
       | some .odict => parseP cs us p v [t] ou.1
       | some .ounion => .error (.typeError "")
       | _ =>
         match getAnnotations t with
         | .error e => .error e
         | .ok anns =>
           match parseAttributes cs us p ps anns with
           | .error e => .error e
           | .ok attrs => constructObj t attrs)
    | _ => parseP cs us p v ou.2 ou.1

/-- `get_parser_with_no_defaults` from `parse.py`: the core unpackers are
always prepended to the caller's, and the returned callable raises
`TypeError` instead of returning a `None` result. -/
def getParserWithNoDefaults (cs : List Conv) (us : List Unp) (fuel : Nat)
    (t : Shape) (v : Value) : Except PErr Value :=
  match parseTop cs (CORE_UNPACKERS ++ us) fuel t v with
  | .error e => .error e
  | .ok r => if r.isVnone then .error (.typeError "") else .ok r

/-- `get_parser` from `parse.py`: the caller's converters first, then the
built-in defaults. -/
def getParser (cs : List Conv) (us : List Unp) (fuel : Nat)
    (t : Shape) (v : Value) : Except PErr Value :=
  getParserWithNoDefaults (cs ++ DEFAULT_CONVERTERS) us fuel t v

/-- The result a matched outcome determines in `_parse_value`: a direct
value is returned as-is, a pending resolution is run with the recursive
parser.  (`noMatch` never reaches this point; its value here mirrors the
`None` fall-through.) -/
def resolveOutcome (p : Parser) : MatchOut → Except PErr Value
  | .noMatch => .ok .vnone
  | .value x => .ok x
  | .pend pd => runPend p pd

/-- Whether a parse result is a success. -/
def isOkE (r : Except PErr Value) : Bool :=
  match r with
  | .ok _ => true
  | .error _ => false

/-- Shapes that are neither parameterized generics nor `None`/`Ellipsis`:
plain scalar classes and record classes.  `isinstance` never raises on
these. -/
def isSimpleShape : Shape → Bool
  | .scalar _ => true
  | .classS _ _ => true
  | _ => false

/-- Target shapes that are not sequence-shaped (not list- or
tuple-origined, not dicts): scalars, record classes and `NoneType`. -/
def isNonSeqTarget : Shape → Bool
  | .scalar _ => true
  | .classS _ _ => true
  | .noneS => true
  | _ => false

/-!
## The earlier-iteration engine of `src/parse.py`

This version rates candidate value parsers (`IParser.match`) instead of
chaining converters, and its `_parse_value` unwraps a single-element
list/tuple raw value before falling back to the rated parsers.
-/

namespace Legacy

/-- `type(value)`: the runtime class of a raw value. -/
inductive PyTy where
  | tInt
  | tStr
  | tBool
  | tNone
  | tEllipsis
  | tList
  | tTuple
  | tDict
  | tObj : String → PyTy

/-- `type(value)`. -/
def typeOf : Value → PyTy
  | .vint _ => .tInt
  | .vstr _ => .tStr
  | .vbool _ => .tBool
  | .vnone => .tNone
  | .vellipsis => .tEllipsis
  | .vlist _ => .tList
  | .vtuple _ => .tTuple
  | .vdict _ => .tDict
  | .vobj n _ => .tObj n

/-- `issubclass(source_type, target)` for a non-union target; raises on
parameterized generics and `Ellipsis`, like `isinstance`. -/
def issubclassBase (s : PyTy) : Shape → Except Unit Bool
  | .scalar .sInt => .ok (match s with | .tInt => true | .tBool => true | _ => false)
  | .scalar .sBool => .ok (match s with | .tBool => true | _ => false)
  | .scalar .sStr => .ok (match s with | .tStr => true | _ => false)
  | .noneS => .ok (match s with | .tNone => true | _ => false)
  | .classS n _ => .ok (match s with | .tObj m => m == n | _ => false)
  | .ellip => .error ()
  | .listS _ => .error ()
  | .tupleS _ => .error ()
  | .tupleVar _ => .error ()
  | .dictS _ _ => .error ()
  | .unionS _ => .error ()

/-- `issubclass` against a flat union's members. -/
def issubclassUnion (s : PyTy) : List Shape → Except Unit Bool
  | [] => .ok false
  | t :: ts =>
    match issubclassBase s t with
    | .error e => .error e
    | .ok true => .ok true
    | .ok false => issubclassUnion s ts

/-- `issubclass(source_type, target)` with `X | Y` targets accepted. -/
def issubclassE (s : PyTy) : Shape → Except Unit Bool
  | .unionS ts => issubclassUnion s ts
  | t => issubclassBase s t

/-- `IParser` from `src/parse.py`: `rate` embeds the interface's `match`
method (the match rating, `0` meaning inapplicable) and `run` embeds its
`parse` method. -/
structure LParser where
  rate : PyTy → Shape → Except PErr Nat
  run : Value → Except PErr Value

/-- `MatchSubtype` from `src/parse.py`. -/
def MatchSubtype : LParser where
  rate s t :=
    match issubclassE s t with
    | .error _ => .error (.typeError "")
    | .ok b => .ok (if b then 1 else 0)
  run v := .ok v

/-- `MatchNone` from `src/parse.py`. -/
def MatchNone : LParser where
  rate s _ :=
    match s with
    | .tNone => .ok 1
    | _ => .ok 0
  run _ := .ok .vnone

/-- `DEFAULT_VALUE_PARSERS` from `src/parse.py`. -/
def DEFAULT_VALUE_PARSERS : List LParser := [MatchSubtype, MatchNone]

/-- `_get_best_value_parser` (with `_best_parser_for`): rate the head,
fold over the rest keeping the strictly better rating, so earlier parsers
win ties. -/
def bestParser (fst : LParser) (rest : List LParser) (s : PyTy) (t : Shape) :
    Except PErr (LParser × Nat) :=
  match fst.rate s t with
  | .error e => .error e
  | .ok m0 =>
    rest.foldlM (fun acc c =>
      match c.rate s t with
      | .error e => .error e
      | .ok cm => .ok (if acc.2 < cm then (c, cm) else acc)) (fst, m0)

/-- `_origin(t_key) is list` (the `_is_iterable(..., list)` assertion). -/
def originIsList : Shape → Bool
  | .listS _ => true
  | _ => false

/-- `_origin(t_key) is tuple` or `is Iterable` (the shapes embedded here
never have `typing.Iterable` as an origin, so only tuple applies). -/
def originIsTuple : Shape → Bool
  | .tupleS _ => true
  | .tupleVar _ => true
  | _ => false

/-- `_is_iterable_candidate`: the target type is not `str`, the value is
not a string, and the value is iterable. -/
def isIterCandidate (t : Shape) (v : Value) : Bool :=
  (match t with | .scalar .sStr => false | _ => true) &&
  (match v with | .vstr _ => false | _ => true) &&
  isIterable v

/-- `(t_key, *_) = get_args(t_key)`: the first type argument; destructuring
an empty argument tuple raises. -/
def headArg (t : Shape) : Option Shape :=
  match shapeArgs t with
  | [] => none
  | a :: _ => some a

/-- `_parse_value` from `src/parse.py`: list-shaped targets with iterable
values, tuple-shaped targets with iterable values, dict values, then the
single-element list/tuple unwrap, and finally the best-rated value
parser (a zero rating raises `TypeError`). -/
def lParseValue (vps : List LParser) (p : Parser) (v : Value) (t : Shape) :
    Except PErr Value :=
  if isIterCandidate t v && originIsList t then
    match t with
    | .listS a =>
      (match (iterElems v).mapM (fun e => p a e) with
       | .error e => .error e
       | .ok xs => .ok (.vlist xs))
    | _ => .error .valueError
  else if isIterCandidate t v && originIsTuple t then
    match headArg t with
    | some a =>
      (match (iterElems v).mapM (fun e => p a e) with
       | .error e => .error e
       | .ok xs => .ok (.vtuple xs))
    | none => .error .valueError
  else if v.isDict then p t v
  else
    match v with
    | .vlist [x] => p t x
    | .vtuple [x] => p t x
    | _ =>
      match vps with
      | [] => .error (.typeError "")
      | fst :: rest =>
        match bestParser fst rest (typeOf v) t with
        | .error e => .error e
        | .ok (best, m) =>
          if m == 0 then .error (.typeError "") else best.run v

/-- `isinstance(parsed, _origin(target_type))`: the origin of a generic
is its bare container class, so this check is total except for the
`Ellipsis` pseudo-target. -/
def instOfOrigin (v : Value) : Shape → Except PErr Bool
  | .scalar st => .ok (conformsScalar v st)
  | .noneS => .ok v.isVnone
  | .classS n _ => .ok (v.isObjOf n)
  | .listS _ => .ok (match v with | .vlist _ => true | _ => false)
  | .tupleS _ => .ok (match v with | .vtuple _ => true | _ => false)
  | .tupleVar _ => .ok (match v with | .vtuple _ => true | _ => false)
  | .dictS _ _ => .ok (match v with | .vdict _ => true | _ => false)
  | .unionS _ => .ok false
  | .ellip => .error (.typeError "")

/-- `_parse_flat` from `src/parse.py`. -/
def lParseFlat (vps : List LParser) (p : Parser) (t : Shape) (v : Value)
    (optional : Bool) : Except PErr Value :=
  match lParseValue vps p v t with
  | .error e => .error e
  | .ok parsed =>
    if optional && parsed.isVnone then .ok .vnone
    else
      match instOfOrigin parsed t with
      | .error e => .error e
      | .ok true => .ok parsed
      | .ok false => .error (.typeError "")

/-- `_get_optional_or_orig` from `src/parse.py`: strip an `Optional`,
destructuring the single non-`None` member (a union with several raises
`ValueError`). -/
def lGetOptionalOrOrig : Shape → Except PErr (Shape × Bool)
  | .unionS ts =>
    (match ts.filter (fun a => !a.isNoneS) with
     | [a] => .ok (a, true)
     | _ => .error .valueError)
  | t => .ok (t, false)

/-- `_parse_key` from `src/parse.py`: like `_parse_key_value` of the
current engine, but the wrapping message uses the stripped type. -/
def lParseKey (vps : List LParser) (p : Parser) (data : List (Value × Value))
    (key : String) (tkey : Shape) : Except PErr Value :=
  match lGetOptionalOrOrig tkey with
  | .error e => .error e
  | .ok (t, optional) =>
    let r :=
      if optional then lParseFlat vps p t (dictGet data key) true
      else
        match dictLookup data key with
        | none => .error (.keyError "")
        | some v => lParseFlat vps p t v false
    match r with
    | .error (.typeError _) => .error (.typeError (typeErrorMsg key t))
    | .error (.keyError _) => .error (.keyError (keyErrorMsg key))
    | r => r

/-- `_get_attributes` from `src/parse.py`. -/
def lGetAttributes (vps : List LParser) (p : Parser)
    (data : List (Value × Value)) :
    List (String × Shape) → Except PErr (List (String × Value))
  | [] => .ok []
  | (k, t) :: rest =>
    match lParseKey vps p data k t with
    | .error e => .error e
    | .ok w =>
      match lGetAttributes vps p data rest with
      | .error e => .error e
      | .ok ws => .ok ((k, w) :: ws)

/-- `_parse` from `src/parse.py` (what `get_parser(*value_parsers)` binds):
strip optionality, resolve non-dict data through `_parse_flat`, and
resolve dict data through the annotations of the target. -/
def lParse (vps : List LParser) : Nat → Shape → Value → Except PErr Value
  | 0, _, _ => .error (.typeError "")
  | fuel + 1, t, v =>
    let p := lParse vps fuel
    match lGetOptionalOrOrig t with
    | .error e => .error e
    | .ok (t, optional) =>
      match v with
      | .vdict ps =>
        (match getAnnotations t with
         | .error e => .error e
         | .ok anns =>
           match lGetAttributes vps p ps anns with
           | .error e => .error e
           | .ok attrs => constructObj t attrs)
      | _ => lParseFlat vps p t v optional

end Legacy

/-!
## Shared lemmas
-/

/-- Converters that return `NoMatch` are skipped by `_try_converters`. -/
theorem tryConverters_append_noMatch (v : Value) (t : Shape)
    (front rest : List Conv) (h : ∀ c ∈ front, c v t = .ok .noMatch) :
    tryConverters v t (front ++ rest) = tryConverters v t rest := by
  induction front with
  | nil => rfl
  | cons c cs ih =>
    have hc : c v t = .ok .noMatch := h c (List.mem_cons_self c cs)
    have hcs : ∀ c' ∈ cs, c' v t = .ok .noMatch :=
      fun c' hm => h c' (List.mem_cons_of_mem c hm)
    simp only [List.cons_append, tryConverters, hc]
    exact ih hcs

/-- The first converter that does not return `NoMatch` decides
`_try_converters`. -/
theorem tryConverters_cons_hit (v : Value) (t : Shape) (c : Conv)
    (cs : List Conv) (r : MatchOut) (hc : c v t = .ok r)
    (hr : r ≠ .noMatch) : tryConverters v t (c :: cs) = .ok r := by
  cases r with
  | noMatch => exact absurd rfl hr
  | value x => simp only [tryConverters, hc]
  | pend pd => simp only [tryConverters, hc]

/-- Union alternatives on which every converter returns `NoMatch` are
skipped by `_parse_value`. -/
theorem parseValue_skip (cs : List Conv) (p : Parser) (v : Value)
    (pre rest : List Shape)
    (h : ∀ a ∈ pre, tryConverters v a cs = .ok .noMatch) :
    parseValue cs p v (pre ++ rest) = parseValue cs p v rest := by
  induction pre with
  | nil => rfl
  | cons a as ih =>
    have ha : tryConverters v a cs = .ok .noMatch := h a (List.mem_cons_self a as)
    have has : ∀ a' ∈ as, tryConverters v a' cs = .ok .noMatch :=
      fun a' hm => h a' (List.mem_cons_of_mem a hm)
    simp only [List.cons_append, parseValue, ha]
    exact ih has

/-- The alternative on which `_try_converters` first succeeds determines
the result of `_parse_value`. -/
theorem parseValue_hit (cs : List Conv) (p : Parser) (v : Value)
    (t : Shape) (rest : List Shape) (r : MatchOut)
    (hc : tryConverters v t cs = .ok r) (hr : r ≠ .noMatch) :
    parseValue cs p v (t :: rest) = resolveOutcome p r := by
  cases r with
  | noMatch => exact absurd rfl hr
  | value x => simp only [parseValue, hc, resolveOutcome]
  | pend pd => simp only [parseValue, hc, resolveOutcome]

/-- A successful elementwise identity parse maps to the identity over
`mapM`. -/
theorem mapM_ok_id (f : Value → Except PErr Value) (xs : List Value)
    (h : ∀ x ∈ xs, f x = .ok x) : xs.mapM f = .ok xs := by
  induction xs with
  | nil => rfl
  | cons x xs ih =>
    have hx : f x = .ok x := h x (List.mem_cons_self x xs)
    have hxs : xs.mapM f = .ok xs :=
      ih (fun x' hm => h x' (List.mem_cons_of_mem x hm))
    rw [List.mapM_cons, hx, hxs]
    rfl

/-- Every shape has positive size. -/
theorem shapeSize_pos (t : Shape) : 1 ≤ shapeSize t := by
  cases t <;> simp only [shapeSize] <;> omega

/-- Members of a shape list are bounded by the list's total size. -/
theorem shapeSizeList_le (ts : List Shape) (a : Shape) (h : a ∈ ts) :
    shapeSize a ≤ shapeSizeList ts := by
  induction ts with
  | nil => exact absurd h (List.not_mem_nil a)
  | cons b bs ih =>
    rcases List.mem_cons.mp h with rfl | h'
    · simp only [shapeSizeList]
      omega
    · have := ih h'
      simp only [shapeSizeList]
      omega

/-- `get_args` strictly shrinks the shape size, so `shapeSize` dominates
the recursion depth of `_is_valid`. -/
theorem shapeArgs_size_lt (t : Shape) (a : Shape) (h : a ∈ shapeArgs t) :
    shapeSize a < shapeSize t := by
  cases t with
  | scalar st => exact absurd h (List.not_mem_nil a)
  | noneS => exact absurd h (List.not_mem_nil a)
  | ellip => exact absurd h (List.not_mem_nil a)
  | classS n fs => exact absurd h (List.not_mem_nil a)
  | listS b =>
    rcases List.mem_singleton.mp h with rfl
    have e1 : shapeSize (Shape.listS a) = shapeSize a + 1 := rfl
    omega
  | tupleS ts =>
    have hle := shapeSizeList_le ts a h
    have e1 : shapeSize (Shape.tupleS ts) = shapeSizeList ts + 1 := rfl
    omega
  | tupleVar b =>
    rcases List.mem_cons.mp h with rfl | h'
    · have e1 : shapeSize (Shape.tupleVar a) = shapeSize a + 1 := rfl
      omega
    · rcases List.mem_singleton.mp h' with rfl
      have e1 : shapeSize (Shape.tupleVar b) = shapeSize b + 1 := rfl
      have e2 : shapeSize Shape.ellip = 1 := rfl
      have := shapeSize_pos b
      omega
  | dictS k w =>
    rcases List.mem_cons.mp h with rfl | h'
    · have e1 : shapeSize (Shape.dictS a w) = shapeSize a + shapeSize w + 1 := rfl
      omega
    · rcases List.mem_singleton.mp h' with rfl
      have e1 : shapeSize (Shape.dictS k a) = shapeSize k + shapeSize a + 1 := rfl
      omega
  | unionS ts =>
    have hle := shapeSizeList_le ts a h
    have e1 : shapeSize (Shape.unionS ts) = shapeSizeList ts + 1 := rfl
    omega

/-- Pointwise-equal predicates give equal `all`. -/
theorem all_congr_mem {α : Type} (l : List α) (p q : α → Bool)
    (h : ∀ x ∈ l, p x = q x) : l.all p = l.all q := by
  induction l with
  | nil => rfl
  | cons x xs ih =>
    simp only [List.all_cons, h x (List.mem_cons_self x xs),
      ih (fun y hy => h y (List.mem_cons_of_mem x hy))]

/-- `_is_valid` is fuel-invariant above `shapeSize t`: the fuelled
embedding computes the source's unbounded recursion. -/
theorem isValidFuel_le (us : List Unp) :
    ∀ (k : Nat) (t : Shape), shapeSize t ≤ k →
      ∀ (f g : Nat) (v : Value), shapeSize t ≤ f → shapeSize t ≤ g →
        isValidFuel us f v t = isValidFuel us g v t := by
  intro k
  induction k with
  | zero =>
    intro t ht
    have := shapeSize_pos t
    omega
  | succ k ih =>
    intro t ht f g v hf hg
    have hpos := shapeSize_pos t
    obtain ⟨f', rfl⟩ : ∃ f', f = f' + 1 := ⟨f - 1, by omega⟩
    obtain ⟨g', rfl⟩ : ∃ g', g = g' + 1 := ⟨g - 1, by omega⟩
    simp only [isValidFuel]
    cases hpy : pyIsinstance v t
    case true => simp [hpy]
    case false =>
      simp only [hpy, Bool.false_eq_true, if_false]
      cases ho : getOrigin t
      case none => rfl
      case some o =>
        cases hred : reduceUnpack us v t
        case noMatch => rfl
        case groups gs =>
          cases hlen : (gs.length == (shapeArgs t).length)
          case false => simp [hlen]
          case true =>
            simp only [hlen, if_true]
            refine all_congr_mem _ _ _ (fun ga hga => ?_)
            refine all_congr_mem _ _ _ (fun e _ => ?_)
            have hmem : ga.2 ∈ shapeArgs t := (List.of_mem_zip hga).2
            have hlt := shapeArgs_size_lt t ga.2 hmem
            exact ih ga.2 (by omega) f' g' e (by omega) (by omega)

/-- Any fuel at least `shapeSize t` computes `_is_valid`. -/
theorem isValidFuel_eq_isValid (us : List Unp) (v : Value) (t : Shape)
    (f : Nat) (h : shapeSize t ≤ f) : isValidFuel us f v t = isValid us v t :=
  isValidFuel_le us (shapeSize t) t (Nat.le_refl _) f (shapeSize t) v h
    (Nat.le_refl _)

/-- Unfolding `_get_parser`'s `parse` on a non-dict value: it resolves
through `_parse` with the union candidates, handing the next recursion
level down as the parser capability. -/
theorem parseTop_nondict (cs : List Conv) (us : List Unp) (fuel : Nat)
    (t : Shape) (v : Value) (h : v.isDict = false) :
    parseTop cs us (fuel + 1) t v =
      parseP cs us (parseTop cs us fuel) v (unpackUnion t).2 (unpackUnion t).1 := by
  cases v <;> first
    | rfl
    | exact Bool.noConfusion h

/-- Scalar parses are the identity for the optional parser built from the
default converters (any unpackers). -/
theorem parseScalarId (us : List Unp) (f : Nat) (st : STy) (v : Value)
    (h : conformsScalar v st = true) :
    parseTop DEFAULT_CONVERTERS us (f + 1) (.scalar st) v = .ok v := by
  cases v <;> cases st <;> first
    | rfl
    | exact Bool.noConfusion h

/-- A value conforming to a scalar class is not `None`. -/
theorem conformsScalar_not_vnone (st : STy) (v : Value)
    (h : conformsScalar v st = true) : v.isVnone = false := by
  cases v <;> cases st <;> first
    | rfl
    | exact Bool.noConfusion h

/-!
## C1 — the matcher chain
-/

/-- C1: `get_parser` appends the built-in defaults after the
caller-supplied converters, the default chain is
tuple/list/map/nested/scalar in that order, and the outcome of the chain
is the outcome of the first converter that does not return `NoMatch`. -/
theorem c1_matcher_chain :
    DEFAULT_CONVERTERS =
      [convert_tuple, convert_list, convert_dict, convert_nested, convert_value] ∧
    (∀ (cs : List Conv) (us : List Unp) (fuel : Nat) (t : Shape) (v : Value),
      getParser cs us fuel t v =
        getParserWithNoDefaults (cs ++ DEFAULT_CONVERTERS) us fuel t v) ∧
    (∀ (user front rest : List Conv) (c : Conv) (v : Value) (t : Shape)
      (r : MatchOut),
      user ++ DEFAULT_CONVERTERS = front ++ c :: rest →
      (∀ c' ∈ front, c' v t = .ok .noMatch) →
      c v t = .ok r → r ≠ .noMatch →
      tryConverters v t (user ++ DEFAULT_CONVERTERS) = .ok r) := by
  refine ⟨rfl, fun _ _ _ _ _ => rfl, ?_⟩
  intro user front rest c v t r hsplit hfront hc hr
  rw [hsplit, tryConverters_append_noMatch v t front (c :: rest) hfront]
  exact tryConverters_cons_hit v t c rest r hc hr

/-- C1 witness: with no caller converters, `convert_tuple` is first and
its match on an empty tuple decides the chain. -/
theorem c1_matcher_chain_witness :
    tryConverters (.vlist []) (.tupleS []) ([] ++ DEFAULT_CONVERTERS) =
      .ok (.pend (.tupleP [])) := by
  exact c1_matcher_chain.2.2 [] []
    [convert_list, convert_dict, convert_nested, convert_value]
    convert_tuple (.vlist []) (.tupleS []) (.pend (.tupleP []))
    rfl (fun c' hm => absurd hm (List.not_mem_nil c')) rfl
    (fun hne => MatchOut.noConfusion hne)

/-!
## C5 — identity on already-conforming scalars
-/

/-- C5: for any non-generic target shape (a scalar class or a record
class) and any value that directly satisfies its `isinstance` conformance
(such values are never mappings), the default parser returns the value
itself unchanged. -/
theorem c5_scalar_identity (f : Nat) (t : Shape) (v : Value)
    (hs : isSimpleShape t = true) (h : isinstanceE v t = .ok true) :
    getParser [] [] (f + 1) t v = .ok v := by
  cases t with
  | scalar st =>
    have hc : conformsScalar v st = true := by
      simp only [isinstanceE, isinstanceBase] at h
      injection h
    show getParserWithNoDefaults ([] ++ DEFAULT_CONVERTERS) [] (f + 1)
      (.scalar st) v = .ok v
    unfold getParserWithNoDefaults
    have hp : parseTop ([] ++ DEFAULT_CONVERTERS) (CORE_UNPACKERS ++ []) (f + 1)
        (.scalar st) v = .ok v := parseScalarId (CORE_UNPACKERS ++ []) f st v hc
    rw [hp]
    simp [conformsScalar_not_vnone st v hc]
  | classS n fs =>
    cases v with
    | vobj m attrs =>
      have h2 : (m == n) = true := by
        simp only [isinstanceE, isinstanceBase, Value.isObjOf] at h
        injection h
      have hchain : tryConverters (.vobj m attrs) (.classS n fs)
          DEFAULT_CONVERTERS = .ok (.value (.vobj m attrs)) := by
        simp [DEFAULT_CONVERTERS, tryConverters, convert_tuple, convert_list,
          convert_dict, convert_nested, convert_value, isinstanceE,
          isinstanceBase, isIterable, Value.isObjOf, h2]
      have hpy : pyIsinstance (.vobj m attrs) (.classS n fs) = true := by
        simp [pyIsinstance, isinstanceE, isinstanceBase, Value.isObjOf, h2]
      have hvalid : isValid CORE_UNPACKERS (.vobj m attrs) (.classS n fs) =
          true := by
        show isValidFuel CORE_UNPACKERS 1 (.vobj m attrs) (.classS n fs) = true
        simp [isValidFuel, hpy]
      have hpv : parseValue DEFAULT_CONVERTERS
          (parseTop DEFAULT_CONVERTERS CORE_UNPACKERS f) (.vobj m attrs)
          [.classS n fs] = .ok (.vobj m attrs) := by
        simp only [parseValue, hchain]
      have hpp : parseP DEFAULT_CONVERTERS CORE_UNPACKERS
          (parseTop DEFAULT_CONVERTERS CORE_UNPACKERS f) (.vobj m attrs)
          [.classS n fs] false = .ok (.vobj m attrs) := by
        simp only [parseP, hpv]
        simp [hvalid]
      show getParserWithNoDefaults ([] ++ DEFAULT_CONVERTERS) [] (f + 1)
        (.classS n fs) (.vobj m attrs) = _
      simp only [getParserWithNoDefaults, List.nil_append, List.append_nil]
      rw [parseTop_nondict DEFAULT_CONVERTERS CORE_UNPACKERS f
        (.classS n fs) (.vobj m attrs) rfl]
      simp only [unpackUnion]
      rw [hpp]
      rfl
    | vint i => exact absurd h (by simp [isinstanceE, isinstanceBase, Value.isObjOf])
    | vstr w => exact absurd h (by simp [isinstanceE, isinstanceBase, Value.isObjOf])
    | vbool b => exact absurd h (by simp [isinstanceE, isinstanceBase, Value.isObjOf])
    | vnone => exact absurd h (by simp [isinstanceE, isinstanceBase, Value.isObjOf])
    | vellipsis => exact absurd h (by simp [isinstanceE, isinstanceBase, Value.isObjOf])
    | vlist xs => exact absurd h (by simp [isinstanceE, isinstanceBase, Value.isObjOf])
    | vtuple xs => exact absurd h (by simp [isinstanceE, isinstanceBase, Value.isObjOf])
    | vdict ps => exact absurd h (by simp [isinstanceE, isinstanceBase, Value.isObjOf])
  | noneS => exact Bool.noConfusion hs
  | ellip => exact Bool.noConfusion hs
  | listS a => exact Bool.noConfusion hs
  | tupleS ts => exact Bool.noConfusion hs
  | tupleVar a => exact Bool.noConfusion hs
  | dictS k w => exact Bool.noConfusion hs
  | unionS ts => exact Bool.noConfusion hs

/-- C5 witness: the integer `7` parses to itself at shape `int`, and a
record instance parses to itself at its own class shape. -/
theorem c5_scalar_identity_witness :
    getParser [] [] 2 (.scalar .sInt) (.vint 7) = .ok (.vint 7) ∧
    getParser [] [] 2 (.classS "P" [("x", .scalar .sInt)])
      (.vobj "P" [("x", .vint 1)]) = .ok (.vobj "P" [("x", .vint 1)]) :=
  ⟨c5_scalar_identity 1 (.scalar .sInt) (.vint 7) rfl rfl,
   c5_scalar_identity 1 (.classS "P" [("x", .scalar .sInt)])
     (.vobj "P" [("x", .vint 1)]) rfl rfl⟩

/-!
## C9 — the public parser never returns a null success
-/

/-- C9: whenever the optional resolution underneath either public factory
produces `None`, the returned callable raises `TypeError` instead of
returning it. -/
theorem c9_no_null_success :
    (∀ (cs : List Conv) (us : List Unp) (fuel : Nat) (t : Shape) (v : Value),
      parseTop cs (CORE_UNPACKERS ++ us) fuel t v = .ok .vnone →
      getParserWithNoDefaults cs us fuel t v = .error (.typeError "")) ∧
    (∀ (cs : List Conv) (us : List Unp) (fuel : Nat) (t : Shape) (v : Value),
      parseTop (cs ++ DEFAULT_CONVERTERS) (CORE_UNPACKERS ++ us) fuel t v = .ok .vnone →
      getParser cs us fuel t v = .error (.typeError "")) := by
  constructor
  · intro cs us fuel t v h
    unfold getParserWithNoDefaults
    rw [h]
    rfl
  · intro cs us fuel t v h
    show getParserWithNoDefaults (cs ++ DEFAULT_CONVERTERS) us fuel t v = _
    unfold getParserWithNoDefaults
    rw [h]
    rfl

/-- C9 witness: parsing `None` at the nullable shape `int | None`
resolves to `None` internally and the public parser raises. -/
theorem c9_no_null_success_witness :
    getParser [] [] 1 (.unionS [.scalar .sInt, .noneS]) .vnone =
      .error (.typeError "") :=
  c9_no_null_success.2 [] [] 1 (.unionS [.scalar .sInt, .noneS]) .vnone rfl

/-!
## C2 — union alternatives
-/

/-- C2 counterexample: for `Union[list[str], list[int]]` on `[1]` the
first alternative's matcher accepts and its lazy resolution fails, and
that failure propagates — the second alternative, which on its own
succeeds, is never tried, so the first *success* does not determine the
result. -/
theorem c2_union_counterexample :
    getParser [] [] 4 (.unionS [.listS (.scalar .sStr), .listS (.scalar .sInt)])
      (.vlist [.vint 1]) = .error (.typeError "") ∧
    getParser [] [] 4 (.listS (.scalar .sInt)) (.vlist [.vint 1]) =
      .ok (.vlist [.vint 1]) :=
  ⟨rfl, rfl⟩

/-- C2 (amended): the non-null alternatives are the union's alternatives
in declared order, and alternatives are tried left-to-right only at the
matching stage — the first alternative on which some converter returns a
non-`NoMatch` outcome determines the result (a pending resolution is run
and its outcome, success or failure, is returned without trying later
alternatives). -/
theorem c2_union_order :
    (∀ ts : List Shape,
      unpackUnion (.unionS ts) =
        (ts.any Shape.isNoneS, ts.filter (fun a => !a.isNoneS))) ∧
    (∀ (cs : List Conv) (p : Parser) (v : Value) (pre : List Shape)
      (t : Shape) (rest : List Shape) (r : MatchOut),
      (∀ a ∈ pre, tryConverters v a cs = .ok .noMatch) →
      tryConverters v t cs = .ok r → r ≠ .noMatch →
      parseValue cs p v (pre ++ t :: rest) = resolveOutcome p r) := by
  refine ⟨fun _ => rfl, ?_⟩
  intro cs p v pre t rest r hpre ht hr
  rw [parseValue_skip cs p v pre (t :: rest) hpre]
  exact parseValue_hit cs p v t rest r ht hr

/-- C2 witness: with the default chain, `[1]` against
`[list[str], list[int]]` is decided by the match on the first
alternative (whose resolution then fails). -/
theorem c2_union_order_witness :
    parseValue DEFAULT_CONVERTERS
      (parseTop DEFAULT_CONVERTERS CORE_UNPACKERS 2) (.vlist [.vint 1])
      ([] ++ .listS (.scalar .sStr) :: [.listS (.scalar .sInt)]) =
      resolveOutcome (parseTop DEFAULT_CONVERTERS CORE_UNPACKERS 2)
        (.pend (.listP (.scalar .sStr) [.vint 1])) :=
  c2_union_order.2 DEFAULT_CONVERTERS
    (parseTop DEFAULT_CONVERTERS CORE_UNPACKERS 2) (.vlist [.vint 1]) []
    (.listS (.scalar .sStr)) [.listS (.scalar .sInt)]
    (.pend (.listP (.scalar .sStr) [.vint 1]))
    (fun a hm => absurd hm (List.not_mem_nil a)) rfl
    (fun hne => MatchOut.noConfusion hne)

/-!
## C4 — nullable and missing record fields
-/

/-- C4 counterexample: for the nullable generic field
`f : list[int] | None`, both the omitted key and an explicit null raise
`TypeError` (from the unguarded `isinstance` in `convert_value`) instead
of resolving the field to null. -/
theorem c4_nullable_counterexample :
    getParser [] [] 4
      (.classS "P" [("f", .unionS [.listS (.scalar .sInt), .noneS])])
      (.vdict []) =
      .error (.typeError
        (typeErrorMsg "f" (.unionS [.listS (.scalar .sInt), .noneS]))) ∧
    getParser [] [] 4
      (.classS "P" [("f", .unionS [.listS (.scalar .sInt), .noneS])])
      (.vdict [(.vstr "f", .vnone)]) =
      .error (.typeError
        (typeErrorMsg "f" (.unionS [.listS (.scalar .sInt), .noneS]))) :=
  ⟨rfl, rfl⟩

/-- The default converters all return `NoMatch` on `None` against scalar
and record-class candidates, so `_parse_value` falls through to `None`. -/
theorem parseValue_vnone_simple (p : Parser) (cands : List Shape)
    (h : ∀ c ∈ cands, isSimpleShape c = true) :
    parseValue DEFAULT_CONVERTERS p .vnone cands = .ok .vnone := by
  induction cands with
  | nil => rfl
  | cons c cs ih =>
    have hc : isSimpleShape c = true := h c (List.mem_cons_self c cs)
    have hcs : parseValue DEFAULT_CONVERTERS p .vnone cs = .ok .vnone :=
      ih (fun c' hm => h c' (List.mem_cons_of_mem c hm))
    have hchain : tryConverters .vnone c DEFAULT_CONVERTERS = .ok .noMatch := by
      cases c <;> first
        | rfl
        | exact Bool.noConfusion hc
    simp only [parseValue, hchain]
    exact hcs

/-- C4 (amended): for a nullable field, an explicit null and an omitted
key produce equal outcomes always, and the field resolves to null
whenever every non-null candidate shape is a plain scalar or record
class (for parameterized generic candidates both spellings instead raise
the `TypeError` of the counterexample); a non-nullable missing key always
yields a `KeyError` naming the field. -/
theorem c4_nullable_fields :
    (∀ (cs : List Conv) (us : List Unp) (p : Parser)
      (d₁ d₂ : List (Value × Value)) (k : String) (t : Shape),
      (unpackUnion t).1 = true →
      dictLookup d₁ k = some .vnone → dictLookup d₂ k = none →
      parseKeyValue cs us p d₁ k t = parseKeyValue cs us p d₂ k t) ∧
    (∀ (us : List Unp) (p : Parser) (data : List (Value × Value))
      (k : String) (t : Shape),
      (unpackUnion t).1 = true →
      (∀ c ∈ (unpackUnion t).2, isSimpleShape c = true) →
      dictGet data k = .vnone →
      parseKeyValue DEFAULT_CONVERTERS us p data k t = .ok .vnone) ∧
    (∀ (cs : List Conv) (us : List Unp) (p : Parser)
      (data : List (Value × Value)) (k : String) (t : Shape),
      (unpackUnion t).1 = false →
      dictLookup data k = none →
      parseKeyValue cs us p data k t = .error (.keyError (keyErrorMsg k))) := by
  refine ⟨?_, ?_, ?_⟩
  · intro cs us p d₁ d₂ k t hopt h₁ h₂
    simp only [parseKeyValue, wrapFieldErr, hopt, if_true, dictGet, h₁, h₂,
      Option.getD_some, Option.getD_none]
  · intro us p data k t hopt hsimple hget
    have hpp : parseP DEFAULT_CONVERTERS us p .vnone (unpackUnion t).2 true =
        .ok .vnone := by
      unfold parseP
      rw [parseValue_vnone_simple p (unpackUnion t).2 hsimple]
      rfl
    simp only [parseKeyValue, hopt, if_true, hget, hpp, wrapFieldErr]
  · intro cs us p data k t hopt hnone
    simp only [parseKeyValue, hopt, hnone, Bool.false_eq_true, if_false,
      wrapFieldErr]

/-- C4 witness: a nullable plain field (`name : str | None`) missing from
the data resolves to null. -/
theorem c4_nullable_fields_witness :
    parseKeyValue DEFAULT_CONVERTERS CORE_UNPACKERS
      (parseTop DEFAULT_CONVERTERS CORE_UNPACKERS 2) [] "name"
      (.unionS [.scalar .sStr, .noneS]) = .ok .vnone :=
  c4_nullable_fields.2.1 CORE_UNPACKERS
    (parseTop DEFAULT_CONVERTERS CORE_UNPACKERS 2) [] "name"
    (.unionS [.scalar .sStr, .noneS]) rfl
    (by decide)
    rfl

/-!
## C3 — tuple arity law
-/

/-- Fuelled scalar conformance short-circuits `_is_valid`. -/
theorem isValidFuel_scalar (us : List Unp) (f : Nat) (st : STy) (e : Value)
    (h : conformsScalar e st = true) :
    isValidFuel us (f + 1) e (.scalar st) = true := by
  simp [isValidFuel, pyIsinstance, isinstanceE, isinstanceBase, h]

/-- Zipping with a replicated slot shape and resolving is elementwise
resolution. -/
theorem zip_replicate_mapM (p : Parser) (a : Shape) (elems : List Value)
    (h : ∀ e ∈ elems, p a e = .ok e) :
    (elems.zip (List.replicate elems.length a)).mapM (fun pr => p pr.2 pr.1) =
      .ok elems := by
  induction elems with
  | nil => rfl
  | cons e es ih =>
    have he : p a e = .ok e := h e (List.mem_cons_self e es)
    have hes := ih (fun e' hm => h e' (List.mem_cons_of_mem e hm))
    simp only [List.length_cons, List.replicate_succ, List.zip_cons_cons,
      List.mapM_cons, he, hes]
    rfl

/-- C3: a fixed-arity tuple shape rejects every input sequence whose
length differs from its slot count (the chain then raises `TypeError`
from the scalar fallback's `isinstance`), while the variadic tuple
matcher accepts an iterable of any length, pairing every element with
the single element shape, and with conforming elements the parse
succeeds at any length. -/
theorem c3_tuple_arity :
    (∀ (ts : List Shape) (elems : List Value) (f : Nat) (v : Value),
      (v = .vlist elems ∨ v = .vtuple elems) →
      isVariadicArgs ts = false →
      elems.length ≠ ts.length →
      getParser [] [] (f + 1) (.tupleS ts) v = .error (.typeError "")) ∧
    (∀ (v : Value) (a : Shape), isIterable v = true →
      convert_tuple v (.tupleVar a) =
        .ok (.pend (.tupleP ((iterElems v).zip
          (List.replicate (iterElems v).length a))))) ∧
    (∀ (st : STy) (elems : List Value) (f : Nat),
      (∀ e ∈ elems, conformsScalar e st = true) →
      getParser [] [] (f + 2) (.tupleVar (.scalar st)) (.vlist elems) =
        .ok (.vtuple elems)) := by
  refine ⟨?_, ?_, ?_⟩
  · intro ts elems f v hv hvar hlen
    have hbeq : (ts.length == elems.length) = false :=
      beq_eq_false_iff_ne.mpr (Ne.symm hlen)
    have hit : isIterable v = true := by rcases hv with rfl | rfl <;> rfl
    have hel : iterElems v = elems := by rcases hv with rfl | rfl <;> rfl
    have hct : convert_tuple v (.tupleS ts) = .ok .noMatch := by
      simp [convert_tuple, hit, getOrigin, shapeArgs, hvar, hel, hbeq]
    have hcl : convert_list v (.tupleS ts) = .ok .noMatch := by
      simp [convert_list, hit]
    have hcd : convert_dict v (.tupleS ts) = .ok .noMatch := by
      rcases hv with rfl | rfl <;> rfl
    have hcn : convert_nested v (.tupleS ts) = .ok .noMatch := by
      rcases hv with rfl | rfl <;> rfl
    have hcv : convert_value v (.tupleS ts) = .error (.typeError "") := rfl
    have hchain : tryConverters v (.tupleS ts) DEFAULT_CONVERTERS =
        .error (.typeError "") := by
      simp [DEFAULT_CONVERTERS, tryConverters, hct, hcl, hcd, hcn, hcv]
    rcases hv with rfl | rfl <;>
      simp [getParser, getParserWithNoDefaults, parseTop, parseP, parseValue,
        unpackUnion, hchain]
  · intro v a h
    simp [convert_tuple, h, shapeArgs, isVariadicArgs, getOrigin]
  · intro st elems f h
    have hsc : ∀ e ∈ elems,
        parseTop DEFAULT_CONVERTERS CORE_UNPACKERS (f + 1) (.scalar st) e =
          .ok e :=
      fun e hm => parseScalarId CORE_UNPACKERS f st e (h e hm)
    have hmap := zip_replicate_mapM
      (parseTop DEFAULT_CONVERTERS CORE_UNPACKERS (f + 1)) (.scalar st) elems hsc
    have hall : (elems.all
        fun e => isValidFuel CORE_UNPACKERS 1 e (.scalar st)) = true :=
      List.all_eq_true.mpr (fun e hm => isValidFuel_scalar _ 0 st e (h e hm))
    have hvalid :
        isValid CORE_UNPACKERS (.vtuple elems) (.tupleVar (.scalar st)) = true := by
      have h1 : isValid CORE_UNPACKERS (.vtuple elems) (.tupleVar (.scalar st)) =
          ((elems.all fun e => isValidFuel CORE_UNPACKERS 1 e (.scalar st)) &&
            (([Value.vellipsis].all
              fun e => isValidFuel CORE_UNPACKERS 1 e .ellip) && true)) := rfl
      rw [h1, hall]
      rfl
    have hct : convert_tuple (.vlist elems) (.tupleVar (.scalar st)) =
        .ok (.pend (.tupleP (elems.zip
          (List.replicate elems.length (.scalar st))))) := by
      simp [convert_tuple, getOrigin, shapeArgs, isVariadicArgs, iterElems,
        isIterable]
    have hchain : tryConverters (.vlist elems) (.tupleVar (.scalar st))
        DEFAULT_CONVERTERS =
        .ok (.pend (.tupleP (elems.zip
          (List.replicate elems.length (.scalar st))))) := by
      simp only [DEFAULT_CONVERTERS, tryConverters, hct]
    have hpv : parseValue DEFAULT_CONVERTERS
        (parseTop DEFAULT_CONVERTERS CORE_UNPACKERS (f + 1)) (.vlist elems)
        [.tupleVar (.scalar st)] = .ok (.vtuple elems) := by
      simp only [parseValue, hchain, runPend]
      rw [hmap]
    have hpp : parseP DEFAULT_CONVERTERS CORE_UNPACKERS
        (parseTop DEFAULT_CONVERTERS CORE_UNPACKERS (f + 1)) (.vlist elems)
        [.tupleVar (.scalar st)] false = .ok (.vtuple elems) := by
      simp only [parseP, hpv]
      simp [hvalid]
    show getParserWithNoDefaults ([] ++ DEFAULT_CONVERTERS) [] ((f + 1) + 1)
      (.tupleVar (.scalar st)) (.vlist elems) = _
    simp only [getParserWithNoDefaults, List.nil_append, List.append_nil]
    rw [parseTop_nondict DEFAULT_CONVERTERS CORE_UNPACKERS (f + 1)
      (.tupleVar (.scalar st)) (.vlist elems) rfl]
    simp only [unpackUnion]
    rw [hpp]
    rfl

/-- C3 witness: `[1]` fails against `tuple[int, int]`, and a length-3
list succeeds against `tuple[int, ...]`. -/
theorem c3_tuple_arity_witness :
    getParser [] [] 1 (.tupleS [.scalar .sInt, .scalar .sInt])
      (.vlist [.vint 1]) = .error (.typeError "") ∧
    getParser [] [] 2 (.tupleVar (.scalar .sInt))
      (.vlist [.vint 1, .vint 2, .vint 3]) =
      .ok (.vtuple [.vint 1, .vint 2, .vint 3]) :=
  ⟨c3_tuple_arity.1 [.scalar .sInt, .scalar .sInt] [.vint 1] 0
      (.vlist [.vint 1]) (Or.inl rfl) rfl (by decide),
   c3_tuple_arity.2.2 .sInt [.vint 1, .vint 2, .vint 3] 0 (by decide)⟩

/-!
## C6 — the generic validator registry
-/

/-- Appending caller unpackers never changes a core unpacker's
non-`NoMatch` result: the core unpackers run first in the `reduce`. -/
theorem reduceUnpack_core_stable (us : List Unp) (v : Value) (t : Shape)
    (r : UnpackRes) (h : reduceUnpack CORE_UNPACKERS v t = r)
    (hr : r ≠ .noMatch) : reduceUnpack (CORE_UNPACKERS ++ us) v t = r := by
  have hstay : ∀ (bs : List Unp) (r' : UnpackRes), r' ≠ .noMatch →
      bs.foldl (fun r u => match r with | .noMatch => u v t | r => r) r' = r' := by
    intro bs
    induction bs with
    | nil => intro r' _; rfl
    | cons b bs ih =>
      intro r' h'
      cases r' with
      | noMatch => exact absurd rfl h'
      | groups gs =>
        show bs.foldl _ (UnpackRes.groups gs) = _
        exact ih (.groups gs) (fun hh => UnpackRes.noConfusion hh)
  unfold reduceUnpack at h ⊢
  rw [List.foldl_append, h]
  exact hstay us r hr

/-- C6: the core unpackers are list/tuple/dict; a generic target on which
every registered unpacker returns `NoMatch` is invalid (fail closed), so
`_parse` raises when no candidate validates; and caller-supplied
unpackers, appended after the core ones, can never override a core
unpacker's verdict — they only extend the registry. -/
theorem c6_validator_registry :
    CORE_UNPACKERS = [unpack_to_list, unpack_to_tuple, unpack_dict] ∧
    (∀ (us : List Unp) (v : Value) (t : Shape) (o : Origin),
      pyIsinstance v t = false → getOrigin t = some o →
      reduceUnpack us v t = .noMatch → isValid us v t = false) ∧
    (∀ (cs : List Conv) (us : List Unp) (p : Parser) (v : Value)
      (alts : List Shape) (optional : Bool) (parsed : Value),
      parseValue cs p v alts = .ok parsed →
      (optional && parsed.isVnone) = false →
      (∀ a ∈ alts, isValid us parsed a = false) →
      parseP cs us p v alts optional = .error (.typeError "")) ∧
    (∀ (us : List Unp) (v : Value) (t : Shape) (r : UnpackRes),
      reduceUnpack CORE_UNPACKERS v t = r → r ≠ .noMatch →
      reduceUnpack (CORE_UNPACKERS ++ us) v t = r) := by
  refine ⟨rfl, ?_, ?_, reduceUnpack_core_stable⟩
  · intro us v t o hpy ho hred
    unfold isValid
    rcases hsz : shapeSize t with _ | m
    · exact absurd hsz (by cases t <;> simp [shapeSize])
    · simp [isValidFuel, hpy, ho, hred]
  · intro cs us p v alts optional parsed hpv hcond hall
    have hany : (alts.any fun a => isValid us parsed a) = false := by
      rw [List.any_eq_false]
      intro a ha
      simp [hall a ha]
    simp only [parseP, hpv, hcond, hany]
    rfl

/-- C6 witness: with an empty registry, a list value cannot be validated
against `list[int]` — `_is_valid` fails closed. -/
theorem c6_validator_registry_witness :
    isValid [] (.vlist [.vint 1]) (.listS (.scalar .sInt)) = false :=
  c6_validator_registry.2.1 [] (.vlist [.vint 1]) (.listS (.scalar .sInt))
    .olist rfl rfl rfl

/-!
## C7 — first failing field aborts the record
-/

/-- A `_parse_key_value` failure that surfaces as a `TypeError` or
`KeyError` carries the field-naming message. -/
theorem wrapFieldErr_error_named (k : String) (t : Shape)
    (r : Except PErr Value) (e : PErr) (h : wrapFieldErr k t r = .error e) :
    (∀ m, e = PErr.typeError m → m = typeErrorMsg k t) ∧
    (∀ m, e = PErr.keyError m → m = keyErrorMsg k) := by
  rcases r with e' | w
  · rcases e' with m | m
    case error.typeError =>
      simp only [wrapFieldErr] at h
      injection h with h2
      subst h2
      refine ⟨fun m hm => ?_, fun m hm => ?_⟩
      · injection hm with hm2
        exact hm2.symm
      · exact PErr.noConfusion hm
    case error.keyError =>
      simp only [wrapFieldErr] at h
      injection h with h2
      subst h2
      refine ⟨fun m hm => ?_, fun m hm => ?_⟩
      · exact PErr.noConfusion hm
      · injection hm with hm2
        exact hm2.symm
    case error.valueError =>
      simp only [wrapFieldErr] at h
      injection h with h2
      subst h2
      exact ⟨fun m hm => PErr.noConfusion hm, fun m hm => PErr.noConfusion hm⟩
  · exact Except.noConfusion h

/-- Specialization of `wrapFieldErr_error_named` to `_parse_key_value`. -/
theorem parseKeyValue_error_named (cs : List Conv) (us : List Unp)
    (p : Parser) (data : List (Value × Value)) (k : String) (t : Shape)
    (e : PErr) (h : parseKeyValue cs us p data k t = .error e) :
    (∀ m, e = PErr.typeError m → m = typeErrorMsg k t) ∧
    (∀ m, e = PErr.keyError m → m = keyErrorMsg k) := by
  simp only [parseKeyValue] at h
  exact wrapFieldErr_error_named k t _ e h

/-- The first failing field aborts `_parse_attributes` with exactly that
field's error, whatever fields follow. -/
theorem parseAttributes_abort (cs : List Conv) (us : List Unp) (p : Parser)
    (data : List (Value × Value)) :
    ∀ (pre : List (String × Shape)) (k : String) (t : Shape)
      (post : List (String × Shape)) (e : PErr),
      (∀ x ∈ pre, isOkE (parseKeyValue cs us p data x.1 x.2) = true) →
      parseKeyValue cs us p data k t = .error e →
      parseAttributes cs us p data (pre ++ (k, t) :: post) = .error e := by
  intro pre
  induction pre with
  | nil =>
    intro k t post e _ herr
    simp only [List.nil_append, parseAttributes, herr]
  | cons x xs ih =>
    intro k t post e hok herr
    obtain ⟨xk, xt⟩ := x
    have hx := hok (xk, xt) (List.mem_cons_self _ _)
    rcases hpk : parseKeyValue cs us p data xk xt with e' | w
    · rw [hpk] at hx
      exact Bool.noConfusion hx
    · simp only [List.cons_append, parseAttributes, hpk, List.append_eq]
      rw [ih k t post e (fun x' hm => hok x' (List.mem_cons_of_mem _ hm)) herr]

/-- C7: record fields are resolved in declaration order; once every field
before `(k, t)` resolves and `(k, t)` fails, the whole record parse fails
with exactly that single failure — the remaining fields (any `post`) are
never attempted — and whenever the failure surfaces as a
`TypeError`/`KeyError` its message names the failing field. -/
theorem c7_first_field_failure (cs : List Conv) (us : List Unp) (p : Parser)
    (data : List (Value × Value)) (pre : List (String × Shape)) (k : String)
    (t : Shape) (post : List (String × Shape)) (e : PErr)
    (hok : ∀ x ∈ pre, isOkE (parseKeyValue cs us p data x.1 x.2) = true)
    (herr : parseKeyValue cs us p data k t = .error e) :
    parseAttributes cs us p data (pre ++ (k, t) :: post) = .error e ∧
    (∀ m, e = PErr.typeError m → m = typeErrorMsg k t) ∧
    (∀ m, e = PErr.keyError m → m = keyErrorMsg k) :=
  ⟨parseAttributes_abort cs us p data pre k t post e hok herr,
   parseKeyValue_error_named cs us p data k t e herr⟩

/-- C7 witness: with field declarations `a : int, b : str, c : int` and
data `{"a": 1}`, field `a` resolves, field `b` is missing, and the record
resolution is exactly `b`'s `KeyError`. -/
theorem c7_first_field_failure_witness :
    parseAttributes DEFAULT_CONVERTERS CORE_UNPACKERS
      (parseTop DEFAULT_CONVERTERS CORE_UNPACKERS 2)
      [(.vstr "a", .vint 1)]
      ([("a", .scalar .sInt)] ++ ("b", .scalar .sStr) :: [("c", .scalar .sInt)]) =
      .error (.keyError (keyErrorMsg "b")) :=
  (c7_first_field_failure DEFAULT_CONVERTERS CORE_UNPACKERS
    (parseTop DEFAULT_CONVERTERS CORE_UNPACKERS 2) [(.vstr "a", .vint 1)]
    [("a", .scalar .sInt)] "b" (.scalar .sStr) [("c", .scalar .sInt)]
    (.keyError (keyErrorMsg "b"))
    (fun x hm => by
      rcases List.mem_singleton.mp hm with rfl
      rfl)
    rfl).1

/-!
## C10 — iterables and the list/tuple matchers
-/

/-- C10: the built-in list matcher accepts every iterable raw value (the
target's origin being `list`), the built-in tuple matcher accepts every
iterable raw value at a variadic tuple shape, and parsing a string
against `list[str]` succeeds with the string's single-character
elements. -/
theorem c10_iterables_accepted :
    (∀ (v : Value) (a : Shape), isIterable v = true →
      convert_list v (.listS a) = .ok (.pend (.listP a (iterElems v)))) ∧
    (∀ (v : Value) (a : Shape), isIterable v = true →
      convert_tuple v (.tupleVar a) =
        .ok (.pend (.tupleP ((iterElems v).zip
          (List.replicate (iterElems v).length a))))) ∧
    (∀ (s : String) (f : Nat),
      getParser [] [] (f + 2) (.listS (.scalar .sStr)) (.vstr s) =
        .ok (.vlist (iterElems (.vstr s)))) := by
  refine ⟨?_, ?_, ?_⟩
  · intro v a h
    simp [convert_list, h]
  · intro v a h
    simp [convert_tuple, h, shapeArgs, isVariadicArgs, getOrigin]
  · intro s f
    have hsc : ∀ x ∈ iterElems (.vstr s),
        parseTop DEFAULT_CONVERTERS CORE_UNPACKERS (f + 1) (.scalar .sStr) x =
          .ok x := by
      intro x hm
      simp only [iterElems, List.mem_map] at hm
      obtain ⟨c, _, rfl⟩ := hm
      exact parseScalarId CORE_UNPACKERS f .sStr _ rfl
    have hmap := mapM_ok_id
      (fun e => parseTop DEFAULT_CONVERTERS CORE_UNPACKERS (f + 1)
        (.scalar .sStr) e)
      (iterElems (.vstr s)) hsc
    have hallstr : ((iterElems (.vstr s)).all
        fun e => isValidFuel CORE_UNPACKERS 1 e (.scalar .sStr)) = true := by
      refine List.all_eq_true.mpr (fun e hm => ?_)
      simp only [iterElems, List.mem_map] at hm
      obtain ⟨c, _, rfl⟩ := hm
      exact isValidFuel_scalar _ 0 .sStr _ rfl
    have hvalid : isValid CORE_UNPACKERS (.vlist (iterElems (.vstr s)))
        (.listS (.scalar .sStr)) = true := by
      have h1 : isValid CORE_UNPACKERS (.vlist (iterElems (.vstr s)))
          (.listS (.scalar .sStr)) =
          (((iterElems (.vstr s)).all
            fun e => isValidFuel CORE_UNPACKERS 1 e (.scalar .sStr)) && true) := rfl
      rw [h1, hallstr]
      rfl
    have hchain : tryConverters (.vstr s) (.listS (.scalar .sStr))
        DEFAULT_CONVERTERS =
        .ok (.pend (.listP (.scalar .sStr) (iterElems (.vstr s)))) := rfl
    have hpv : parseValue DEFAULT_CONVERTERS
        (parseTop DEFAULT_CONVERTERS CORE_UNPACKERS (f + 1)) (.vstr s)
        [.listS (.scalar .sStr)] = .ok (.vlist (iterElems (.vstr s))) := by
      simp only [parseValue, hchain, runPend]
      rw [hmap]
    have hpp : parseP DEFAULT_CONVERTERS CORE_UNPACKERS
        (parseTop DEFAULT_CONVERTERS CORE_UNPACKERS (f + 1)) (.vstr s)
        [.listS (.scalar .sStr)] false =
        .ok (.vlist (iterElems (.vstr s))) := by
      simp only [parseP, hpv]
      simp [hvalid]
    show getParserWithNoDefaults ([] ++ DEFAULT_CONVERTERS) [] ((f + 1) + 1)
      (.listS (.scalar .sStr)) (.vstr s) = _
    simp only [getParserWithNoDefaults, List.nil_append, List.append_nil]
    rw [parseTop_nondict DEFAULT_CONVERTERS CORE_UNPACKERS (f + 1)
      (.listS (.scalar .sStr)) (.vstr s) rfl]
    simp only [unpackUnion]
    rw [hpp]
    rfl

/-- C10 witness: the string `"ab"` is accepted by the list matcher at
`list[str]`. -/
theorem c10_iterables_accepted_witness :
    convert_list (.vstr "ab") (.listS (.scalar .sStr)) =
      .ok (.pend (.listP (.scalar .sStr) (iterElems (.vstr "ab")))) :=
  c10_iterables_accepted.1 (.vstr "ab") (.scalar .sStr) rfl

/-!
## C8 — singleton-sequence unwrap
-/

/-- C8 counterexample: the `python_parse` engine (also cited by the
claim) does not unwrap a single-element sequence — `[5]` against `int`
raises `TypeError`, although the sole element parses on its own. -/
theorem c8_no_unwrap_counterexample :
    getParser [] [] 4 (.scalar .sInt) (.vlist [.vint 5]) =
      .error (.typeError "") ∧
    getParser [] [] 4 (.scalar .sInt) (.vint 5) = .ok (.vint 5) :=
  ⟨rfl, rfl⟩

/-- C8 (amended, holding of the legacy `src/parse.py` engine): its
`_parse_value` unwraps a single-element list or tuple against any
non-sequence target shape and retries with the sole element, so a
singleton sequence standing in for a conforming scalar parses to that
scalar. -/
theorem c8_legacy_singleton_unwrap :
    (∀ (vps : List Legacy.LParser) (p : Parser) (x : Value) (t : Shape),
      isNonSeqTarget t = true →
      Legacy.lParseValue vps p (.vlist [x]) t = p t x ∧
      Legacy.lParseValue vps p (.vtuple [x]) t = p t x) ∧
    (∀ (st : STy) (x : Value) (f : Nat), conformsScalar x st = true →
      Legacy.lParse Legacy.DEFAULT_VALUE_PARSERS (f + 2) (.scalar st)
        (.vlist [x]) = .ok x ∧
      Legacy.lParse Legacy.DEFAULT_VALUE_PARSERS (f + 2) (.scalar st)
        (.vtuple [x]) = .ok x) := by
  constructor
  · intro vps p x t h
    cases t <;>
      first
        | exact Bool.noConfusion h
        | exact ⟨rfl, rfl⟩
        | (rename_i st; cases st <;> exact ⟨rfl, rfl⟩)
  · intro st x f h
    cases x <;> cases st <;>
      first
        | exact ⟨rfl, rfl⟩
        | exact Bool.noConfusion h

/-- C8 witness: `[5]` parses to `5` at shape `int` under the legacy
engine. -/
theorem c8_legacy_singleton_unwrap_witness :
    Legacy.lParse Legacy.DEFAULT_VALUE_PARSERS 2 (.scalar .sInt)
      (.vlist [.vint 5]) = .ok (.vint 5) :=
  (c8_legacy_singleton_unwrap.2 .sInt (.vint 5) 0 rfl).1

end PythonParse
